import Mathlib

/-!
Verification of the WalletWise backend's conversational-assistant pipeline
(`src/controllers/chatbotController.js`) and the analytics comparison-period
resolver (`src/controllers/analyticsController.js`).

The JavaScript source is shallowly embedded:

* Calendar dates are modelled as day numbers (days since 1970-01-01, the
  same epoch the JS `Date` object uses, at day granularity), converted
  to and from `(year, month, day)` triples with the standard civil-calendar
  algorithms.  `new Date(y, m, d)` (with its month/day overflow rollover),
  `setDate`, `getDay` and `toISOString().split('T')[0]` are modelled by
  `jsNewDate`, `jsSetDate`, `jsGetDay` and `daysToCivil`.  The server clock
  is taken to be UTC, so local-time and ISO (UTC) components agree.
* JS numbers are modelled as rationals.  Rational arithmetic is written
  with `mkRat` and `num`/`den` projections so that every definition
  evaluates inside the kernel.
* JS values produced by `JSON.parse` are modelled by the inductive
  `JsValue`; host functions (`fetch`, `JSON.parse`, `parseFloat`,
  the Firestore query) are oracle parameters, while every line of
  repository code is a definition below.
-/

/-! ## Calendar arithmetic

`civilToDays`/`daysToCivil` are the standard civil-from-days /
days-from-civil algorithms (Gregorian calendar, epoch 1970-01-01).
All divisions are floor divisions, matching `Math.floor` and the floor
formulation of the algorithm (every divisor is positive, so Euclidean
`/` and `%` on `ℤ` coincide with floor division). -/

/-- Day number (days since 1970-01-01) of the civil date `(y, m, d)`,
`m` being 1-based. -/
def civilToDays (y m d : ℤ) : ℤ :=
  let y' : ℤ := if m ≤ 2 then y - 1 else y
  let era : ℤ := y' / 400
  let yoe : ℤ := y' - era * 400
  let mp : ℤ := (m + 9) % 12
  let doy : ℤ := (153 * mp + 2) / 5 + d - 1
  let doe : ℤ := yoe * 365 + yoe / 4 - yoe / 100 + doy
  era * 146097 + doe - 719468

/-- Civil date `(y, m, d)` (month 1-based) of a day number. -/
def daysToCivil (z : ℤ) : ℤ × ℤ × ℤ :=
  let z' : ℤ := z + 719468
  let era : ℤ := z' / 146097
  let doe : ℤ := z' - era * 146097
  let yoe : ℤ := (doe - doe / 1460 + doe / 36524 - doe / 146096) / 365
  let y : ℤ := yoe + era * 400
  let doy : ℤ := doe - (365 * yoe + yoe / 4 - yoe / 100)
  let mp : ℤ := (5 * doy + 2) / 153
  let d : ℤ := doy - (153 * mp + 2) / 5 + 1
  let m : ℤ := mp + (if mp < 10 then 3 else -9)
  (if m ≤ 2 then y + 1 else y, m, d)

/-- Day number built the way `new Date(y, m0, d)` builds a time value:
the (0-based) month `m0` is first normalised into `y`, then day `d`
is added as an offset from the 1st, so out-of-range months and days
roll over exactly as in JS. -/
def jsNewDate (y m0 d : ℤ) : ℤ :=
  civilToDays (y + m0 / 12) (m0 % 12 + 1) 1 + (d - 1)

/-- `date.setDate(n)`: keep the year and month of `z`, set the day-of-month
to `n` (with rollover). -/
def jsSetDate (z n : ℤ) : ℤ :=
  z - (daysToCivil z).2.2 + n

/-- `date.getDay()`: weekday, 0 = Sunday.  1970-01-01 was a Thursday. -/
def jsGetDay (z : ℤ) : ℤ :=
  (z + 4) % 7

/-- The year component of a civil triple. -/
def ymdYear (x : ℤ × ℤ × ℤ) : ℤ := x.1

/-- The month component of a civil triple. -/
def ymdMonth (x : ℤ × ℤ × ℤ) : ℤ := x.2.1

/-- The day component of a civil triple. -/
def ymdDay (x : ℤ × ℤ × ℤ) : ℤ := x.2.2

/-- Ordering of `YYYY-MM-DD` strings (for 4-digit years, string order is
exactly lexicographic order on the `(y, m, d)` components). -/
def ymdLe (a b : ℤ × ℤ × ℤ) : Prop :=
  a.1 < b.1 ∨ (a.1 = b.1 ∧ (a.2.1 < b.2.1 ∨ (a.2.1 = b.2.1 ∧ a.2.2 ≤ b.2.2)))

instance (a b : ℤ × ℤ × ℤ) : Decidable (ymdLe a b) := by
  unfold ymdLe; infer_instance

/-- Number of days of month `m` of year `y` in the (proleptic) Gregorian
calendar.  This is the spec's notion of a "leap-year-correct" February
end day; it is used to state claims, not taken from the repository code. -/
def daysInMonth (y m : ℤ) : ℤ :=
  if m = 2 then
    if (y % 4 = 0 ∧ y % 100 ≠ 0) ∨ y % 400 = 0 then 29 else 28
  else if m = 4 ∨ m = 6 ∨ m = 9 ∨ m = 11 then 30
  else 31

/-! ## Rational helpers

Kernel-evaluable arithmetic on `ℚ` (the core `Rat` operations are
`irreducible`, so sums are written out with `mkRat`). -/

/-- Addition on `ℚ` via `mkRat` (definitionally evaluable). -/
def qadd (a b : ℚ) : ℚ :=
  mkRat (a.num * (b.den : ℤ) + b.num * (a.den : ℤ)) (a.den * b.den)

/-- Whether a rational is strictly negative. -/
def qneg (q : ℚ) : Bool :=
  q.num < 0

/-- Absolute value on `ℚ` via `mkRat`. -/
def qabs (q : ℚ) : ℚ :=
  if q.num < 0 then mkRat (-q.num) q.den else q

/-- `⌊1000·q + 1/2⌋` for `q ≥ 0`: the numerator of `q` scaled to
thousandths and rounded half-up (= half-away-from-zero on nonnegatives,
the default `Intl` rounding). -/
def roundThousandths (q : ℚ) : ℤ :=
  (2000 * q.num + (q.den : ℤ)) / (2 * (q.den : ℤ))

/-! ## String helpers (JS string built-ins, ASCII behaviour) -/

/-- `String.prototype.toLowerCase` (ASCII case folding). -/
def jsToLower (s : String) : String :=
  ⟨s.data.map Char.toLower⟩

/-- Whitespace test used by `trim`. -/
def isWs (c : Char) : Bool :=
  c = ' ' ∨ c = '\t' ∨ c = '\n' ∨ c = '\r'

/-- `String.prototype.trim` on character lists. -/
def jsTrimList (l : List Char) : List Char :=
  ((l.dropWhile isWs).reverse.dropWhile isWs).reverse

/-- `String.prototype.trim`. -/
def jsTrimStr (s : String) : String :=
  ⟨jsTrimList s.data⟩

/-- Substring test on character lists: some suffix of `l` starts with `pat`. -/
def containsSub (l pat : List Char) : Bool :=
  match l with
  | [] => pat.isEmpty
  | _ :: t => pat.isPrefixOf l || containsSub t pat

/-- `String.prototype.includes`. -/
def strIncludes (s pat : String) : Bool :=
  containsSub s.data pat.data

/-- Insert a thousands separator every three digits; the input is the
digit list in reverse order and the output is reversed as well. -/
def commify (l : List Char) : List Char :=
  match l with
  | a :: b :: c :: d :: t => a :: b :: c :: ',' :: commify (d :: t)
  | l => l

/-- Decimal digits of a natural number (via `Nat.repr`). -/
def natDigits (n : ℕ) : List Char :=
  (toString n).data

/-- Strip trailing zeros from a fractional-digit list. -/
def stripZeros (l : List Char) : List Char :=
  (l.reverse.dropWhile (fun c => c = '0')).reverse

/-- Left-pad a digit list with zeros to 3 places. -/
def pad3 (l : List Char) : List Char :=
  if l.length = 1 then '0' :: '0' :: l
  else if l.length = 2 then '0' :: l
  else l

/-- `Number.prototype.toLocaleString()` with the `en-US` defaults:
thousands grouping, at most 3 fraction digits (rounded half away from
zero), trailing fractional zeros dropped. -/
def jsToLocaleString (q : ℚ) : String :=
  let t : ℤ := roundThousandths (qabs q)
  let ip : ℤ := t / 1000
  let fr : ℤ := t % 1000
  let ipStr : List Char := (commify (natDigits ip.toNat).reverse).reverse
  let frStr : List Char :=
    if fr = 0 then [] else '.' :: stripZeros (pad3 (natDigits fr.toNat))
  ⟨(if qneg q then ['-'] else []) ++ ipStr ++ frStr⟩

/-! ## JS values

`JsValue` models the values that flow out of `JSON.parse` and through the
controller: primitives, arrays and objects (field order significant, as
in JS).  `JSON.parse` itself (and `parseFloat` on strings) are host
functions supplied as oracles of type `String → Option JsValue`
(respectively `String → Option ℚ`), `none` meaning a parse error (NaN for
`parseFloat`). -/

inductive JsValue where
  | undefined : JsValue
  | null : JsValue
  | bool (b : Bool) : JsValue
  | num (q : ℚ) : JsValue
  | str (s : String) : JsValue
  | arr (xs : List JsValue) : JsValue
  | obj (fields : List (String × JsValue)) : JsValue

/-- JS truthiness (`NaN` is not representable in the rational model). -/
def truthy (v : JsValue) : Bool :=
  match v with
  | .undefined => false
  | .null => false
  | .bool b => b
  | .num q => q.num ≠ 0
  | .str s => s ≠ ""
  | .arr _ => true
  | .obj _ => true

/-- Strict equality of a JS value with a string literal (`v === "lit"`). -/
def jsStrEq (v : JsValue) (s : String) : Bool :=
  match v with
  | .str t => t = s
  | _ => false

/-- Property access `v.k`: throws (`TypeError`) on `null`/`undefined`,
looks the key up on objects, and yields `undefined` on other primitives
and arrays (none of the keys the controller uses is a built-in). -/
def jsGetProp (v : JsValue) (k : String) : Except Unit JsValue :=
  match v with
  | .undefined => .error ()
  | .null => .error ()
  | .obj fs =>
      .ok (match fs.find? (fun f => f.1 = k) with
           | some f => f.2
           | none => .undefined)
  | _ => .ok .undefined

/-- Index access `v[0]`: throws on `null`/`undefined`, yields the first
element (or `undefined`) on arrays, `undefined` on other primitives. -/
def jsIndexZero (v : JsValue) : Except Unit JsValue :=
  match v with
  | .undefined => .error ()
  | .null => .error ()
  | .arr xs => .ok (xs.headD .undefined)
  | _ => .ok .undefined

/-- Property assignment `v.k := w`: JS keeps the position of an existing
key and appends a new one; assignment to a primitive is a silent no-op
(non-strict mode) and throws on `null`/`undefined`. -/
def jsSetProp (v : JsValue) (k : String) (w : JsValue) : Except Unit JsValue :=
  match v with
  | .undefined => .error ()
  | .null => .error ()
  | .obj fs =>
      .ok (.obj (if fs.any (fun f => f.1 = k)
                 then fs.map (fun f => if f.1 = k then (f.1, w) else f)
                 else fs ++ [(k, w)]))
  | other => .ok other

/-- `response.choices[0].message.content` (line 89 etc.): the chain of
accesses on the gateway's decoded JSON body. -/
def getContent (resp : JsValue) : Except Unit JsValue := do
  let choices ← jsGetProp resp "choices"
  let c0 ← jsIndexZero choices
  let msg ← jsGetProp c0 "message"
  jsGetProp msg "content"

/-- The brace-delimited extraction regex `/\x7b[\s\S]*\x7d/`: the span
from the first opening brace to the last closing brace, provided the
latter comes after the former. -/
def braceSub (s : String) : Option String :=
  let fromBrace : List Char := s.data.dropWhile (fun c => c ≠ '\x7b')
  match fromBrace with
  | [] => none
  | _ :: _ =>
      let upto : List Char :=
        (fromBrace.reverse.dropWhile (fun c => c ≠ '\x7d')).reverse
      match upto with
      | [] => none
      | [_] => none
      | l => some ⟨l⟩

/-- `extractJsonFromText` (lines 55-71) on a string: direct `JSON.parse`,
then parse of the brace-delimited match; an error either way otherwise. -/
def extractJsonFromString (parse : String → Option JsValue) (text : String) :
    Except Unit JsValue :=
  match parse text with
  | some v => .ok v
  | none =>
      match braceSub text with
      | some sub =>
          match parse sub with
          | some v => .ok v
          | none => .error ()
      | none => .error ()

/-- `extractJsonFromText` applied to an arbitrary content value.  JS
coerces the argument of `JSON.parse` to a string, so numbers, booleans
and `null` re-parse to themselves; on `undefined`, arrays and objects
both strategies throw (`text.match` is not a function there), which
surfaces as an error to the caller.  (An array whose join happens to be
valid JSON is not modelled.) -/
def extractJsonFromText (parse : String → Option JsValue) (text : JsValue) :
    Except Unit JsValue :=
  match text with
  | .str s => extractJsonFromString parse s
  | .num q => .ok (.num q)
  | .bool b => .ok (.bool b)
  | .null => .ok .null
  | _ => .error ()

/-- The fixed 15-category set (lines 7-12). -/
def EXPENSE_CATEGORIES : List String :=
  ["Food & Dining", "Transportation", "Shopping", "Bills & Utilities",
   "Entertainment", "Travel", "Education", "Health & Fitness",
   "Personal Care", "Home & Rent", "Groceries", "Investments",
   "Insurance", "Gifts & Donations", "Other"]

/-! ## The gateway retry loop (`callGroqApi`, lines 15-52)

The `fetch`/decode pair of attempt `i` is the oracle `outcomes i`
(`.ok` = a decoded response body, `.error` = a network error or a
non-ok HTTP status).  The loop returns its result together with the
list of backoff waits (in ms) it performed between attempts. -/

/-- One pass of the `for (attempt = 0; attempt <= retries; attempt++)`
loop, `remaining` being `retries - attempt`. -/
def callGroqApiGo {E R : Type} (outcomes : ℕ → Except E R) :
    ℕ → ℕ → Except E R × List ℕ
  | attempt, remaining =>
    match outcomes attempt, remaining with
    | .ok r, _ => (.ok r, [])
    | .error e, 0 => (.error e, [])
    | .error _, n + 1 =>
        let rest := callGroqApiGo outcomes (attempt + 1) n
        (rest.1, 1000 * 2 ^ attempt :: rest.2)

/-- `callGroqApi` with its default bound of 2 retries (3 attempts). -/
def callGroqApi {E R : Type} (outcomes : ℕ → Except E R)
    (retries : ℕ := 2) : Except E R × List ℕ :=
  callGroqApiGo outcomes 0 retries

/-! ## Category normalisation (`mapToPreDefinedCategory`, lines 99-126)

The result depends only on the gateway outcome `gw` for the mapping
call (the user category only feeds the prompt).  The model's answer is
trimmed and accepted only on exact (case-sensitive) membership of
`EXPENSE_CATEGORIES`; any failure — gateway error, malformed response
shape, non-string content — lands in the `catch` and yields "Other". -/

/-- The trimmed content string of a gateway outcome, if the call
succeeded, the response had the expected shape, and the content was a
string (`content.trim()` throws otherwise). -/
def contentString (gw : Except Unit JsValue) : Option String :=
  match (do
    let resp ← gw
    let c ← getContent resp
    match c with
    | .str s => Except.ok (jsTrimStr s)
    | _ => Except.error () : Except Unit String) with
  | .ok s => some s
  | .error _ => none

/-- `mapToPreDefinedCategory`. -/
def mapToPreDefinedCategory (gw : Except Unit JsValue) : String :=
  match contentString gw with
  | some mapped => if mapped ∈ EXPENSE_CATEGORIES then mapped else "Other"
  | none => "Other"

/-! ## Intent detection (`detectIntent`, lines 74-96) -/

/-- The `try` body of `detectIntent`: gateway call, content extraction,
JSON extraction, then `parsedContent.intent || "chitchat"`. -/
def detectIntentBody (gw : Except Unit JsValue)
    (parse : String → Option JsValue) : Except Unit JsValue := do
  let resp ← gw
  let content ← getContent resp
  let parsed ← extractJsonFromText parse content
  let intent ← jsGetProp parsed "intent"
  pure (if truthy intent then intent else .str "chitchat")

/-- `detectIntent`: any thrown error defaults to `"chitchat"`. -/
def detectIntent (gw : Except Unit JsValue)
    (parse : String → Option JsValue) : JsValue :=
  match detectIntentBody gw parse with
  | .ok v => v
  | .error _ => .str "chitchat"

/-! ## Expense extraction (`extractExpenseDetails`, lines 129-169)

Two gateway outcomes are in play: `gwExtract` for the extraction call
and `gwMap` for the nested `mapToPreDefinedCategory` call. -/

/-- The `try` body of `extractExpenseDetails`. -/
def extractExpenseDetailsBody (gwExtract gwMap : Except Unit JsValue)
    (parse : String → Option JsValue) : Except Unit JsValue := do
  let resp ← gwExtract
  let content ← getContent resp
  let parsedDetails ← extractJsonFromText parse content
  let err ← jsGetProp parsedDetails "error"
  if truthy err then
    pure parsedDetails
  else
    jsSetProp parsedDetails "category" (.str (mapToPreDefinedCategory gwMap))

/-- `extractExpenseDetails`: any thrown error yields the fixed
`\x7berror: "Failed to parse expense details."\x7d` object. -/
def extractExpenseDetails (gwExtract gwMap : Except Unit JsValue)
    (parse : String → Option JsValue) : JsValue :=
  match extractExpenseDetailsBody gwExtract gwMap parse with
  | .ok v => v
  | .error _ => .obj [("error", .str "Failed to parse expense details.")]

/-- `parseFloat(v)` for a `JsValue`: JS coerces the argument to a string
first, so numbers parse back to themselves and `undefined`/`null`/
booleans/objects give NaN (`none`); string arguments go through the
host parser oracle `pf`. -/
def jsParseFloat (pf : String → Option ℚ) (v : JsValue) : Option ℚ :=
  match v with
  | .num q => some q
  | .str s => pf s
  | _ => none

/-- An expense document as persisted by the add-expense path
(lines 491-498); `userId`/`createdAt` are set by the store and not
modelled. -/
structure ExpenseRecord where
  amount : ℚ
  category : JsValue
  date : JsValue
  title : JsValue

/-- The `add_expense` branch of `interactWithChatbot` (lines 481-503):
given the extracted details, either rejects the turn (`none`, a 400
response, nothing persisted) or persists a record built verbatim from
the details with `amount: parseFloat(amount)`. -/
def addExpenseBranch (details : JsValue) (pf : String → Option ℚ) :
    Option ExpenseRecord :=
  match jsGetProp details "error" with
  | .error _ => none
  | .ok err =>
    if truthy err then none
    else
      match jsGetProp details "amount", jsGetProp details "category",
            jsGetProp details "date", jsGetProp details "title" with
      | .ok amount, .ok category, .ok date, .ok title =>
          match jsParseFloat pf amount with
          | none => none
          | some a =>
              if truthy category ∧ truthy date ∧ truthy title then
                some ⟨a, category, date, title⟩
              else none
      | _, _, _, _ => none

/-! ## Date-period resolution (`processDatePeriod`, lines 172-225)

`todayZ` is the current date as a day number.  Endpoints are the
`(y, m, d)` components of the `YYYY-MM-DD` strings the function builds:
branches that call `toISOString` go through `daysToCivil`, branches that
build the string from components yield those components directly (which
is how `2100-02-29` could be produced verbatim). -/

/-- The branch of the `processDatePeriod` conditional chain.  The chain
branches on the (normalised) period text alone, so the selection is
split off from the date payloads to keep both readable. -/
inductive PeriodBranch where
  | isToday : PeriodBranch
  | isYesterday : PeriodBranch
  | isThisWeek : PeriodBranch
  | isThisMonth : PeriodBranch
  | isLastMonth : PeriodBranch
  | isApril : PeriodBranch
  | isMarch : PeriodBranch
  | isFebruary : PeriodBranch
  | isJanuary : PeriodBranch
  | isDefault : PeriodBranch
deriving DecidableEq

/-- The branch selected for a period label: the `if`/`else if` chain of
lines 183-222 applied to `period.toLowerCase().trim()`. -/
def classifyPeriod (period : String) : PeriodBranch :=
  let p := jsTrimStr (jsToLower period)
  if p = "today" then .isToday
  else if p = "yesterday" then .isYesterday
  else if p ∈ ["this week", "current week", "the week", "week"] then .isThisWeek
  else if p ∈ ["this month", "current month", "the month", "month"] then .isThisMonth
  else if p ∈ ["last month", "previous month"] then .isLastMonth
  else if strIncludes p "april" ∨ strIncludes p "apr" then .isApril
  else if strIncludes p "march" ∨ strIncludes p "mar" then .isMarch
  else if strIncludes p "february" ∨ strIncludes p "feb" then .isFebruary
  else if strIncludes p "january" ∨ strIncludes p "jan" then .isJanuary
  else .isDefault

/-- `processDatePeriod`. -/
def processDatePeriod (todayZ : ℤ) (period : String) :
    (ℤ × ℤ × ℤ) × (ℤ × ℤ × ℤ) :=
  let today := daysToCivil todayZ
  let y := today.1
  let defaultTo := today
  match classifyPeriod period with
  | .isToday => (defaultTo, defaultTo)
  | .isYesterday =>
      let yst := daysToCivil (jsSetDate todayZ (today.2.2 - 1))
      (yst, yst)
  | .isThisWeek =>
      let day : ℤ := if jsGetDay todayZ = 0 then 7 else jsGetDay todayZ
      (daysToCivil (jsSetDate todayZ (today.2.2 - day + 1)), defaultTo)
  | .isThisMonth => ((y, today.2.1, 1), defaultTo)
  | .isLastMonth =>
      let lastMonth := daysToCivil (jsNewDate y (today.2.1 - 1 - 1) today.2.2)
      ((lastMonth.1, lastMonth.2.1, 1), daysToCivil (jsNewDate y (today.2.1 - 1) 0))
  | .isApril => ((y, 4, 1), (y, 4, 30))
  | .isMarch => ((y, 3, 1), (y, 3, 31))
  | .isFebruary => ((y, 2, 1), (y, 2, if y % 4 = 0 then 29 else 28))
  | .isJanuary => ((y, 1, 1), (y, 1, 31))
  | .isDefault => (daysToCivil (jsSetDate todayZ (today.2.2 - 30)), defaultTo)

/-- `parseTimeExpression` (lines 228-260); the expression reaches it
already lower-cased.  The unanchored case-insensitive regex tests are
any-substring tests. -/
def parseTimeExpression (expr : String) : String :=
  if ["whole month", "entire month", "full month", "this month",
      "current month"].any (fun k => strIncludes expr k) then "this month"
  else if ["last month", "previous month"].any (fun k => strIncludes expr k) then
    "last month"
  else if ["this week", "current week"].any (fun k => strIncludes expr k) then
    "this week"
  else if strIncludes expr "today" then "today"
  else if strIncludes expr "yesterday" then "yesterday"
  else
    match (List.zip
        ["january", "february", "march", "april", "may", "june", "july",
         "august", "september", "october", "november", "december"]
        ["jan", "feb", "mar", "apr", "may", "jun", "jul", "aug", "sep",
         "oct", "nov", "dec"]).find?
        (fun mi => strIncludes expr mi.1 || strIncludes expr mi.2) with
    | some mi => mi.1
    | none => "this month"

/-! ## Expense query (`queryExpenses`, lines 263-401)

The environment bundles the current date plus the host-side effects the
function consumes: the gateway outcome of the parameter-extraction call,
the gateway outcome of the (at most one) category-mapping call, the JSON
parser, and the Firestore query — a function from the applied filters
(optional category, date range endpoints) to either a thrown error or
the matching documents.  Only `amount` and `category` of a document are
read when building the response (stored amounts are numbers). -/

/-- A stored expense document as read back by a query. -/
structure ExpDoc where
  amount : ℚ
  category : String

/-- The environment of a `queryExpenses` call. -/
structure QueryEnv where
  todayZ : ℤ
  parse : String → Option JsValue
  gwParams : Except Unit JsValue
  gwMap : Except Unit JsValue
  db : Option String → (ℤ × ℤ × ℤ) → (ℤ × ℤ × ℤ) → Except Unit (List ExpDoc)

/-- The fallback query parameters built when JSON extraction of the
model's answer throws (lines 292-313). -/
def fallbackQueryParams (message : String) : JsValue :=
  let lower := jsToLower message
  let category : JsValue :=
    match EXPENSE_CATEGORIES.find? (fun cat => strIncludes lower (jsToLower cat)) with
    | some c => .str c
    | none => .null
  let tp : String :=
    if strIncludes lower "today" then "today"
    else if strIncludes lower "yesterday" then "yesterday"
    else if strIncludes lower "week" then "this week"
    else if strIncludes lower "month" then parseTimeExpression lower
    else "this month"
  .obj [("category", category), ("time_period", .str tp)]

/-- Steps of `queryExpenses` up to the Firestore query: extract or fall
back to query parameters, destructure them, resolve the period, map the
category filter.  Result: `(categoryFilter, from, to, time_period)`. -/
def queryPlan (env : QueryEnv) (message : String) :
    Except Unit (Option String × (ℤ × ℤ × ℤ) × (ℤ × ℤ × ℤ) × String) := do
  let apiResponse ← env.gwParams
  let queryParams : JsValue :=
    match (do
      let content ← getContent apiResponse
      extractJsonFromText env.parse content : Except Unit JsValue) with
    | .ok v => v
    | .error _ => fallbackQueryParams message
  let category ← jsGetProp queryParams "category"
  let timePeriod ← jsGetProp queryParams "time_period"
  let tp : String ← match timePeriod with
    | .str s => pure s
    | _ => Except.error ()
  let range := processDatePeriod env.todayZ tp
  let categoryFilter : Option String :=
    if truthy category then some (mapToPreDefinedCategory env.gwMap) else none
  pure (categoryFilter, range.1, range.2, tp)

/-- Per-category totals, a JS object keyed by category: first occurrence
fixes the key position, repeated categories accumulate in place
(lines 377-381). -/
def categoryTotals (acc : List (String × ℚ)) (cat : String) (amt : ℚ) :
    List (String × ℚ) :=
  match acc with
  | [] => [(cat, amt)]
  | (k, v) :: t =>
      if k = cat then (k, qadd v amt) :: t
      else (k, v) :: categoryTotals t cat amt

/-- Stable descending insertion by total: an element is placed before
the first entry with a smaller-or-equal total coming later in the list,
so ties keep their original (insertion) order — the behaviour of the
stable `Array.prototype.sort` with comparator `(a, b) => b[1] - a[1]`. -/
def insertDescByVal (x : String × ℚ) (l : List (String × ℚ)) :
    List (String × ℚ) :=
  match l with
  | [] => [x]
  | y :: t => if x.2.num * (y.2.den : ℤ) < y.2.num * (x.2.den : ℤ)
              then y :: insertDescByVal x t
              else x :: y :: t

/-- Stable sort by descending total. -/
def sortDescByVal (l : List (String × ℚ)) : List (String × ℚ) :=
  match l with
  | [] => []
  | x :: t => insertDescByVal x (sortDescByVal t)

/-- The top-3 category breakdown of a result set (lines 376-386). -/
def topCategoriesOf (docs : List ExpDoc) : List (String × ℚ) :=
  (sortDescByVal (docs.foldl (fun acc e => categoryTotals acc e.category e.amount) [])).take 3

/-- The month-name alternation of the display regex (line 363) and of
the bare-month follow-up regex (line 513), and the array scanned by
`handleMonthNameResponse` (lines 427-430): all three sites list the same
24 lower-case names, full names first. -/
def monthNamesList : List String :=
  ["january", "february", "march", "april", "may", "june",
   "july", "august", "september", "october", "november", "december",
   "jan", "feb", "mar", "apr", "may", "jun",
   "jul", "aug", "sep", "oct", "nov", "dec"]

/-- The display form of the time period (lines 352-368); the raw
`time_period` is compared, not the normalised one. -/
def formattedPeriod (tp : String) : String :=
  if tp = "today" then "today"
  else if tp = "yesterday" then "yesterday"
  else if tp = "this week" ∨ tp = "current week" then "this week"
  else if tp = "this month" ∨ tp = "current month" then "this month"
  else if tp = "last month" ∨ tp = "previous month" then "last month"
  else if monthNamesList.any (fun m => strIncludes (jsToLower tp) m) then
    "in " ++ (match tp.data with
              | [] => ""
              | c :: rest => ⟨c.toUpper :: rest⟩)
  else "for " ++ tp

/-- The success response of `queryExpenses` for a non-empty result set
(lines 342-395). -/
def renderQueryResponse (categoryFilter : Option String) (tp : String)
    (docs : List ExpDoc) : String :=
  let total := docs.foldl (fun acc e => qadd acc e.amount) (mkRat 0 1)
  let categoryText := match categoryFilter with
    | some c => "on " ++ c
    | none => "in total"
  let base := "You spent ₹" ++ jsToLocaleString total ++ " " ++ categoryText
    ++ " " ++ formattedPeriod tp ++ " (" ++ toString docs.length
    ++ " transaction" ++ (if docs.length ≠ 1 then "s" else "") ++ ")."
  if categoryFilter = none ∧ 1 < docs.length then
    let top := topCategoriesOf docs
    if 0 < top.length then
      base ++ " Top categories: " ++ String.intercalate ", "
        (top.map (fun p => p.1 ++ " (₹" ++ jsToLocaleString p.2 ++ ")"))
    else base
  else base

/-- The "no results" sentence (line 338); its template leaves a double
space when there is no category filter. -/
def renderNoExpenses (categoryFilter : Option String) (tp : String) : String :=
  "No expenses found " ++ (match categoryFilter with
                           | some c => "for " ++ c
                           | none => "") ++ " " ++ tp ++ "."

/-- The generic apology sentence of the outer `catch` (line 399). -/
def queryApology : String :=
  "I couldn't process your query. Please try asking in a different way, like 'How much did I spend this month?' or 'What were my food expenses yesterday?'"

/-- The `try` body of `queryExpenses`. -/
def queryExpensesBody (env : QueryEnv) (message : String) :
    Except Unit String := do
  let plan ← queryPlan env message
  let docs ← env.db plan.1 plan.2.1 plan.2.2.1
  if docs.isEmpty then
    pure (renderNoExpenses plan.1 plan.2.2.2)
  else
    pure (renderQueryResponse plan.1 plan.2.2.2 docs)

/-- `queryExpenses`: any thrown error yields the apology sentence. -/
def queryExpenses (env : QueryEnv) (message : String) : String :=
  match queryExpensesBody env message with
  | .ok s => s
  | .error _ => queryApology

/-! ## Month-name fast path and orchestrator branching
(lines 425-441 and 446-528) -/

/-- `handleMonthNameResponse`: if the lower-cased message contains any
of the 24 month names, answer it as a query for that month; otherwise
`null`. -/
def handleMonthNameResponse (env : QueryEnv) (message : String) :
    Option String :=
  match monthNamesList.find? (fun m => strIncludes (jsToLower message) m) with
  | some matched =>
      some (queryExpenses env ("How much did I spend in " ++ matched ++ "?"))
  | none => none

/-- The anchored case-insensitive bare-month test of line 513:
`/^(january|...|dec)$/i.test(message.trim())`. -/
def bareMonthTest (message : String) : Bool :=
  monthNamesList.contains (jsToLower (jsTrimStr message))

/-- Which branch of `interactWithChatbot` produces the response. -/
inductive BotBranch where
  | monthEarly : BotBranch
  | addExpense : BotBranch
  | queryBranch : BotBranch
  | bareMonthFollowup : BotBranch
  | chitchat : BotBranch
deriving DecidableEq

/-- The branch taken after the month fast path declined (lines 477-519).
Note that line 479 (`context.lastIntent = intent`) runs before line 513
reads `context.lastIntent`, so that guard compares the freshly classified
intent, whatever the context held before the turn. -/
def interactAfterMonth (gwIntent : Except Unit JsValue)
    (parse : String → Option JsValue) (message : String) : BotBranch :=
  let intent := detectIntent gwIntent parse
  if jsStrEq intent "add_expense" then .addExpense
  else if jsStrEq intent "query" then .queryBranch
  else if jsStrEq intent "query" && bareMonthTest message then .bareMonthFollowup
  else .chitchat

/-- The branch taken by a turn of `interactWithChatbot`: the month
fast path wins whenever `handleMonthNameResponse` returns a truthy
(non-empty) string. -/
def interactBranch (env : QueryEnv) (gwIntent : Except Unit JsValue)
    (message : String) : BotBranch :=
  match handleMonthNameResponse env message with
  | some r => if r ≠ "" then .monthEarly
              else interactAfterMonth gwIntent env.parse message
  | none => interactAfterMonth gwIntent env.parse message

/-! ## Analytics comparison periods (`getAnalytics`, lines 27-101)

Only the date computation is embedded; amounts and aggregation are not
at issue in the claims about this controller.  A custom range arrives as
two already-parsed day numbers.  The result is
`(startDate, endDate, previousStartDate, previousEndDate)` as day
numbers; `none` models the `timeframe`s for which the code leaves
`startDate` undefined. -/

/-- The timeframe branch of `getAnalytics` (the chain branches on the
`timeframe` string alone, so the selection is split off from the date
payloads). -/
inductive TimeframeBranch where
  | isCustom : TimeframeBranch
  | isDay : TimeframeBranch
  | isWeek : TimeframeBranch
  | isMonth : TimeframeBranch
  | isQuarter : TimeframeBranch
  | isYear : TimeframeBranch
  | isOther : TimeframeBranch
deriving DecidableEq

/-- The timeframe selection of lines 40, 56, 63, 75, 86 and 96. -/
def classifyTimeframe (timeframe : String) : TimeframeBranch :=
  if timeframe = "custom" then .isCustom
  else if timeframe = "day" then .isDay
  else if timeframe = "week" then .isWeek
  else if timeframe = "month" then .isMonth
  else if timeframe = "quarter" then .isQuarter
  else if timeframe = "year" then .isYear
  else .isOther

/-- The date-calculation logic of `getAnalytics` (lines 32-101). -/
def getAnalyticsDates (timeframe : String) (custom : Option (ℤ × ℤ))
    (todayZ : ℤ) : Option (ℤ × ℤ × ℤ × ℤ) :=
  let today := daysToCivil todayZ
  let y := today.1
  let m0 := today.2.1 - 1
  match classifyTimeframe timeframe with
  | .isCustom =>
      match custom with
      | some (cs, ce) =>
          let diffDays := ce - cs
          some (cs, ce, cs - 1 - diffDays, cs - 1)
      | none => none
  | .isDay => some (todayZ, todayZ, todayZ - 1, todayZ - 1)
  | .isWeek =>
      let day := jsGetDay todayZ
      let diff := today.2.2 - day + (if day = 0 then -6 else 1)
      let start := jsSetDate todayZ diff
      some (start, todayZ, start - 1 - 6, start - 1)
  | .isMonth =>
      some (jsNewDate y m0 1, jsNewDate y (m0 + 1) 0,
            jsNewDate y (m0 - 1) 1, jsNewDate y m0 0)
  | .isQuarter =>
      let q := m0 / 3
      if q = 0 then
        some (jsNewDate y 0 1, todayZ, jsNewDate (y - 1) 9 1,
              jsNewDate (y - 1) 11 31)
      else
        some (jsNewDate y (q * 3) 1, todayZ, jsNewDate y ((q - 1) * 3) 1,
              jsNewDate y (q * 3) 0)
  | .isYear =>
      some (jsNewDate y 0 1, todayZ, jsNewDate (y - 1) 0 1,
            jsNewDate (y - 1) 11 31)
  | .isOther => none

/-! ## Statement helpers and concrete fixtures -/

/-- The parsing stage of `detectIntent` (gateway call, content access,
JSON extraction), named so the classifier's contract can be stated. -/
def intentParsePipeline (gw : Except Unit JsValue)
    (parse : String → Option JsValue) : Except Unit JsValue := do
  let resp ← gw
  let content ← getContent resp
  extractJsonFromText parse content

/-- Rounding to 2 decimal places (half away from zero), used to state the
spec's "rounded to 2 decimal places at the point of storage". -/
def round2 (q : ℚ) : ℚ :=
  mkRat ((200 * q.num + (q.den : ℤ)) / (2 * (q.den : ℤ))) 100

/-- A gateway response body of the shape the controller expects,
carrying the given assistant message content. -/
def groqContent (s : String) : JsValue :=
  .obj [("choices", .arr [.obj [("message", .obj [("content", .str s)])]])]

/-- Descending-by-total ordering of a category breakdown: each entry's
total is at least the next one's (cross-multiplied rational form). -/
def descByVal (l : List (String × ℚ)) : Prop :=
  List.Chain' (fun a b => b.2.num * (a.2.den : ℤ) ≤ a.2.num * (b.2.den : ℤ)) l

/-- Concrete fixture: an intent-classification turn whose model reply is
the JSON text `\x7b"intent": "pay_bill"\x7d`. -/
def c2Content : String := "\x7b\"intent\": \"pay_bill\"\x7d"

/-- Concrete fixture: `JSON.parse` behaviour on `c2Content`. -/
def c2Parse : String → Option JsValue := fun s =>
  if s = c2Content then some (.obj [("intent", .str "pay_bill")]) else none

/-- Concrete fixture: extraction-call reply carrying an expense of
amount `-5.123`. -/
def c4Content : String :=
  "\x7b\"amount\": -5.123, \"category\": \"trip\", \"date\": \"2025-01-02\", \"title\": \"Trip\"\x7d"

/-- Concrete fixture: `JSON.parse` behaviour on `c4Content`. -/
def c4Parse : String → Option JsValue := fun s =>
  if s = c4Content then
    some (.obj [("amount", .num (mkRat (-5123) 1000)), ("category", .str "trip"),
                ("date", .str "2025-01-02"), ("title", .str "Trip")])
  else none

/-- Concrete fixture: extraction-call reply carrying a well-formed
expense of amount `2`. -/
def c4wContent : String :=
  "\x7b\"amount\": 2, \"category\": \"taxi\", \"date\": \"2025-01-02\", \"title\": \"Taxi\"\x7d"

/-- Concrete fixture: `JSON.parse` behaviour on `c4wContent`. -/
def c4wParse : String → Option JsValue := fun s =>
  if s = c4wContent then
    some (.obj [("amount", .num (mkRat 2 1)), ("category", .str "taxi"),
                ("date", .str "2025-01-02"), ("title", .str "Taxi")])
  else none

/-- Concrete fixture: a query-parameter reply selecting no category and
the period "this month". -/
def c8Content : String := "\x7b\"category\": null, \"time_period\": \"this month\"\x7d"

/-- Concrete fixture: `JSON.parse` behaviour on `c8Content`. -/
def c8Parse : String → Option JsValue := fun s =>
  if s = c8Content then
    some (.obj [("category", .null), ("time_period", .str "this month")])
  else none

/-- Concrete fixture: the three stored expenses of the breakdown
scenario (two in "Food & Dining", one in "Travel"). -/
def c8Docs : List ExpDoc :=
  [⟨mkRat 100 1, "Food & Dining"⟩, ⟨mkRat 300 1, "Food & Dining"⟩,
   ⟨mkRat 50 1, "Travel"⟩]

/-- Concrete fixture: the query environment of the breakdown scenario
(current date 2025-10-11; the category-mapping gateway is never
consulted because no category filter applies). -/
def c8Env : QueryEnv :=
  { todayZ := civilToDays 2025 10 11
    parse := c8Parse
    gwParams := .ok (groqContent c8Content)
    gwMap := .error ()
    db := fun _ _ _ => .ok c8Docs }

/-- Concrete fixture: an environment whose gateway is down and whose
store throws: every step of a query turn fails. -/
def cFailEnv : QueryEnv :=
  { todayZ := 0
    parse := fun _ => none
    gwParams := .error ()
    gwMap := .error ()
    db := fun _ _ _ => .error () }

/-- Concrete fixture: the breakdown-scenario environment with an empty
result set. -/
def c7EmptyEnv : QueryEnv :=
  { c8Env with db := fun _ _ _ => .ok [] }

/-! ## Helper lemmas -/

/-- A list is a `isPrefixOf`-prefix of itself followed by anything. -/
lemma isPrefixOf_self_append (p y : List Char) : p.isPrefixOf (p ++ y) = true := by
  induction p with
  | nil => simp [List.isPrefixOf]
  | cons a t ih => simp [List.isPrefixOf, ih]

/-- The empty pattern is a substring of every list. -/
lemma containsSub_nil_pat (l : List Char) : containsSub l [] = true := by
  induction l with
  | nil => rfl
  | cons a t ih => simp [containsSub, List.isPrefixOf, ih]

/-- A middle factor is a substring. -/
lemma containsSub_append (x p y : List Char) :
    containsSub (x ++ (p ++ y)) p = true := by
  induction x with
  | nil =>
      cases p with
      | nil => simpa using containsSub_nil_pat y
      | cons a t => simp [containsSub, isPrefixOf_self_append (a :: t) y]
  | cons a t ih => simp [containsSub, ih]

/-- The trimmed form of a list is an inner factor of it. -/
lemma jsTrimList_factor (l : List Char) :
    l = l.takeWhile isWs ++ (jsTrimList l ++ ((l.dropWhile isWs).reverse.takeWhile isWs).reverse) := by
  unfold jsTrimList
  conv_lhs => rw [← List.takeWhile_append_dropWhile (p := isWs) (l := l)]
  congr 1
  conv_lhs => rw [← List.reverse_reverse (l.dropWhile isWs),
    ← List.takeWhile_append_dropWhile (p := isWs) (l := (l.dropWhile isWs).reverse)]
  rw [List.reverse_append]

/-- The category normaliser always lands in the fixed set. -/
lemma mapToPreDefinedCategory_mem (gw : Except Unit JsValue) :
    mapToPreDefinedCategory gw ∈ EXPENSE_CATEGORIES := by
  unfold mapToPreDefinedCategory
  cases contentString gw with
  | none => decide
  | some t =>
      by_cases h : t ∈ EXPENSE_CATEGORIES
      · simp [h]
      · simpa [h] using (by decide : "Other" ∈ EXPENSE_CATEGORIES)

/-- Strings of positive length are not empty. -/
lemma str_ne_empty_of_pos (s : String) (h : 0 < s.length) : s ≠ "" := by
  intro hc
  subst hc
  exact absurd h (by decide)

/-- The "no results" sentence is never the empty string. -/
lemma renderNoExpenses_ne (f : Option String) (tp : String) :
    renderNoExpenses f tp ≠ "" := by
  apply str_ne_empty_of_pos
  have h1 : ("No expenses found " : String).length = 18 := by decide
  unfold renderNoExpenses
  all_goals simp [String.length_append, h1]

/-- The success sentence is never the empty string. -/
lemma renderQueryResponse_ne (f : Option String) (tp : String)
    (docs : List ExpDoc) : renderQueryResponse f tp docs ≠ "" := by
  apply str_ne_empty_of_pos
  have h1 : ("You spent ₹" : String).length = 11 := by decide
  unfold renderQueryResponse
  repeat' split
  all_goals
    first
      | (simp [String.length_append, h1] <;> omega)
      | (by_cases htop : 0 < (topCategoriesOf docs).length <;>
          simp [htop, String.length_append, h1] <;> omega)

/-- `queryExpenses` always produces a non-empty (truthy) sentence. -/
lemma queryExpenses_ne_empty (env : QueryEnv) (msg : String) :
    queryExpenses env msg ≠ "" := by
  unfold queryExpenses
  cases hb : queryExpensesBody env msg with
  | error e => exact (by decide : queryApology ≠ "")
  | ok s =>
      show s ≠ ""
      unfold queryExpensesBody at hb
      cases hp : queryPlan env msg with
      | error e =>
          rw [hp] at hb
          simp [Bind.bind, Except.bind] at hb
      | ok plan =>
          rw [hp] at hb
          simp only [Bind.bind, Except.bind] at hb
          cases hd : env.db plan.1 plan.2.1 plan.2.2.1 with
          | error e =>
              rw [hd] at hb
              simp at hb
          | ok docs =>
              rw [hd] at hb
              by_cases hempty : docs.isEmpty
              · simp [hempty, pure, Except.pure] at hb
                rw [← hb]
                exact renderNoExpenses_ne _ _
              · simp [hempty, pure, Except.pure] at hb
                rw [← hb]
                exact renderQueryResponse_ne _ _ _

/-! ## Claim theorems -/

/-- C6: with its default bound, the gateway makes at most 3 attempts
(2 retries), the waits between consecutive attempts are exactly the
exponential backoff prefix 1s, 2s, a failure of all three attempts
propagates the final attempt's error (and performs both waits), and any
successful result is one actually returned by some attempt — never a
fabricated response. -/
theorem callGroqApi_spec {E R : Type} (outcomes : ℕ → Except E R) :
    (callGroqApi outcomes).2.length + 1 ≤ 3
    ∧ ((callGroqApi outcomes).2 = [] ∨ (callGroqApi outcomes).2 = [1000]
        ∨ (callGroqApi outcomes).2 = [1000, 2000])
    ∧ (∀ e0 e1 e2, outcomes 0 = .error e0 → outcomes 1 = .error e1 →
        outcomes 2 = .error e2 →
        (callGroqApi outcomes).1 = .error e2
          ∧ (callGroqApi outcomes).2 = [1000, 2000])
    ∧ (∀ r, (callGroqApi outcomes).1 = .ok r → ∃ i, i ≤ 2 ∧ outcomes i = .ok r) := by
  rcases h0 : outcomes 0 with e0 | r0 <;> rcases h1 : outcomes 1 with e1 | r1 <;>
    rcases h2 : outcomes 2 with e2 | r2 <;>
      refine ⟨?_, ?_, ?_, ?_⟩ <;>
        simp_all [callGroqApi, callGroqApiGo, h0, h1, h2] <;>
          first
            | rfl
            | exact ⟨0, by omega, h0⟩
            | exact ⟨1, by omega, h1⟩
            | exact ⟨2, by omega, h2⟩

/-- Witness for C6 at a gateway whose three attempts all fail. -/
theorem callGroqApi_spec_witness :
    (callGroqApi (fun i => (Except.error i : Except ℕ ℕ))).1 = .error 2
      ∧ (callGroqApi (fun i => (Except.error i : Except ℕ ℕ))).2 = [1000, 2000] :=
  (callGroqApi_spec (fun i => (Except.error i : Except ℕ ℕ))).2.2.1 0 1 2 rfl rfl rfl

/-- C5: the category normaliser's output is always a member of the fixed
15-category set; on any gateway failure it is "Other"; when the call
succeeds with (trimmed) answer `s`, the answer is returned exactly when
it is an exact, case-sensitive member of the set and "Other" otherwise;
and when no usable answer is produced it is "Other". -/
theorem mapToPreDefinedCategory_spec (gw : Except Unit JsValue) :
    mapToPreDefinedCategory gw ∈ EXPENSE_CATEGORIES
    ∧ (gw = .error () → mapToPreDefinedCategory gw = "Other")
    ∧ (∀ s, contentString gw = some s →
        mapToPreDefinedCategory gw =
          if s ∈ EXPENSE_CATEGORIES then s else "Other")
    ∧ (contentString gw = none → mapToPreDefinedCategory gw = "Other") := by
  refine ⟨mapToPreDefinedCategory_mem gw, ?_, ?_, ?_⟩
  · rintro rfl
    rfl
  · intro s hs
    unfold mapToPreDefinedCategory
    rw [hs]
  · intro hs
    unfold mapToPreDefinedCategory
    rw [hs]

/-- Witness for C5: a downed gateway yields "Other" (and stays inside
the set), and a successful answer of `" Travel "` is trimmed to the
exact member "Travel" and returned, while `"food"` (not an exact,
case-sensitive member) yields "Other". -/
theorem mapToPreDefinedCategory_spec_witness :
    mapToPreDefinedCategory (.error ()) = "Other"
    ∧ mapToPreDefinedCategory (.error ()) ∈ EXPENSE_CATEGORIES
    ∧ mapToPreDefinedCategory (.ok (groqContent " Travel ")) = "Travel"
    ∧ mapToPreDefinedCategory (.ok (groqContent "food")) = "Other" := by
  refine ⟨(mapToPreDefinedCategory_spec (.error ())).2.1 rfl,
          (mapToPreDefinedCategory_spec (.error ())).1, ?_, ?_⟩
  · have h := (mapToPreDefinedCategory_spec (.ok (groqContent " Travel "))).2.2.1
      "Travel" (by decide)
    rw [h]
    decide
  · have h := (mapToPreDefinedCategory_spec (.ok (groqContent "food"))).2.2.1
      "food" (by decide)
    rw [h]
    decide

/-- C2 (amended): the intent classifier returns `"chitchat"` on any
failure — network failure, malformed response shape, unparseable
content, or a missing/falsy `intent` field — but on a successful parse
it returns the `intent` field of the model's JSON verbatim, whatever
string (or non-string value) that is; nothing restricts the output to
the three intended values. -/
theorem detectIntent_amended (gw : Except Unit JsValue)
    (parse : String → Option JsValue) :
    (gw = .error () → detectIntent gw parse = .str "chitchat")
    ∧ (intentParsePipeline gw parse = .error () →
        detectIntent gw parse = .str "chitchat")
    ∧ (detectIntent gw parse = .str "chitchat"
        ∨ ∃ v w, intentParsePipeline gw parse = .ok v
            ∧ jsGetProp v "intent" = .ok w ∧ truthy w = true
            ∧ detectIntent gw parse = w) := by
  rcases hgw : gw with e | resp
  · exact ⟨fun _ => rfl, fun _ => rfl, Or.inl rfl⟩
  · rcases hc : getContent resp with e | content
    · refine ⟨(by rintro ⟨⟩), ?_, Or.inl ?_⟩ <;>
        simp [detectIntent, detectIntentBody, intentParsePipeline, hc,
          Bind.bind, Except.bind]
    · rcases hj : extractJsonFromText parse content with e | v
      · refine ⟨(by rintro ⟨⟩), ?_, Or.inl ?_⟩ <;>
          simp [detectIntent, detectIntentBody, intentParsePipeline, hc, hj,
            Bind.bind, Except.bind]
      · rcases hi : jsGetProp v "intent" with e | w
        · refine ⟨(by rintro ⟨⟩), ?_, Or.inl ?_⟩ <;>
            simp [detectIntent, detectIntentBody, intentParsePipeline, hc, hj,
              hi, Bind.bind, Except.bind]
        · by_cases ht : truthy w
          · refine ⟨(by rintro ⟨⟩), ?_, Or.inr ⟨v, w, ?_, hi, ht, ?_⟩⟩ <;>
              simp [detectIntent, detectIntentBody, intentParsePipeline, hc,
                hj, hi, ht, Bind.bind, Except.bind, Pure.pure, Except.pure]
          · refine ⟨(by rintro ⟨⟩), ?_, Or.inl ?_⟩ <;>
              simp [detectIntent, detectIntentBody, intentParsePipeline, hc,
                hj, hi, ht, Bind.bind, Except.bind, Pure.pure, Except.pure]

/-- Counterexample for C2 as frozen: a gateway success whose model
content is the JSON text `\x7b"intent": "pay_bill"\x7d` makes
`detectIntent` return `"pay_bill"`, a fourth value outside
`\x7badd_expense, query, chitchat\x7d`. -/
theorem detectIntent_fourth_value_counterexample :
    detectIntent (.ok (groqContent c2Content)) c2Parse = .str "pay_bill"
    ∧ "pay_bill" ∉ ["add_expense", "query", "chitchat"] := by
  constructor
  · rfl
  · decide

/-- Witness for C2 at a failing gateway: the fallback value is produced. -/
theorem detectIntent_amended_witness :
    detectIntent (.error ()) (fun _ => none) = .str "chitchat" :=
  (detectIntent_amended (.error ()) (fun _ => none)).1 rfl

/-- C3: the failing input of the `setMonth` rollover bug.  On
2025-03-31 the period "last month" resolves to
`from = 2025-03-01`, `to = 2025-02-28`: `lastMonth.setMonth(-1)` lands
on "February 31" and rolls over to March 3, so `from` names the current
month while `to` correctly names the previous one — and `from > to`,
violating the claimed invariant. -/
theorem processDatePeriod_lastMonth_overflow_bug :
    processDatePeriod (civilToDays 2025 3 31) "last month"
      = ((2025, 3, 1), (2025, 2, 28))
    ∧ ¬ ymdLe (processDatePeriod (civilToDays 2025 3 31) "last month").1
        (processDatePeriod (civilToDays 2025 3 31) "last month").2 := by
  constructor
  · decide
  · decide

/-- Counterexample for C1 as frozen: "may" is a valid English month
name, but on 2025-05-15 the resolver sends it to the default
last-30-days branch, returning `from = 2025-04-15` — not a range inside
May.  Only january–april (and their abbreviations) have month branches. -/
theorem processDatePeriod_may_counterexample :
    (processDatePeriod (civilToDays 2025 5 15) "may").1 = (2025, 4, 15)
    ∧ ymdMonth (processDatePeriod (civilToDays 2025 5 15) "may").1 ≠ 5 := by
  constructor
  · decide
  · decide

/-- C1 (amended): for the month names january–april, full or 3-letter
abbreviation, the resolver returns exactly the first-to-last-day range
of that month in the current year; February's end day is chosen by the
`year % 4` test, which agrees with the Gregorian leap rule for every
year that is not a leap-exceptional century (the hypothesis `hy`). -/
theorem processDatePeriod_recognized_months (z : ℤ) (p : String) (M : ℤ)
    (hp : (p, M) ∈ [("january", (1 : ℤ)), ("jan", 1), ("february", 2),
        ("feb", 2), ("march", 3), ("mar", 3), ("april", 4), ("apr", 4)])
    (hy : (daysToCivil z).1 % 100 ≠ 0 ∨ (daysToCivil z).1 % 400 = 0) :
    processDatePeriod z p
      = (((daysToCivil z).1, M, 1),
         ((daysToCivil z).1, M, daysInMonth (daysToCivil z).1 M)) := by
  have hdim2 : daysInMonth (daysToCivil z).1 2
      = (if (daysToCivil z).1 % 4 = 0 then 29 else 28) := by
    by_cases h4 : (daysToCivil z).1 % 4 = 0
    · have hleap : ((daysToCivil z).1 % 4 = 0 ∧ (daysToCivil z).1 % 100 ≠ 0)
          ∨ (daysToCivil z).1 % 400 = 0 := by
        rcases hy with hy | hy
        · exact Or.inl ⟨h4, hy⟩
        · exact Or.inr hy
      have e1 : daysInMonth (daysToCivil z).1 2 = 29 := by
        unfold daysInMonth
        rw [if_pos (rfl : (2 : ℤ) = 2), if_pos hleap]
      rw [e1, if_pos h4]
    · have hleap : ¬ (((daysToCivil z).1 % 4 = 0 ∧ (daysToCivil z).1 % 100 ≠ 0)
          ∨ (daysToCivil z).1 % 400 = 0) := by
        rintro (⟨h, _⟩ | h)
        · exact h4 h
        · exact h4 (by omega)
      have e1 : daysInMonth (daysToCivil z).1 2 = 28 := by
        unfold daysInMonth
        rw [if_pos (rfl : (2 : ℤ) = 2), if_neg hleap]
      rw [e1, if_neg h4]
  fin_cases hp
  · have hcl : classifyPeriod "january" = .isJanuary := by decide
    simp [processDatePeriod, hcl, daysInMonth]
  · have hcl : classifyPeriod "jan" = .isJanuary := by decide
    simp [processDatePeriod, hcl, daysInMonth]
  · have hcl : classifyPeriod "february" = .isFebruary := by decide
    simp [processDatePeriod, hcl, hdim2]
  · have hcl : classifyPeriod "feb" = .isFebruary := by decide
    simp [processDatePeriod, hcl, hdim2]
  · have hcl : classifyPeriod "march" = .isMarch := by decide
    simp [processDatePeriod, hcl, daysInMonth]
  · have hcl : classifyPeriod "mar" = .isMarch := by decide
    simp [processDatePeriod, hcl, daysInMonth]
  · have hcl : classifyPeriod "april" = .isApril := by decide
    simp [processDatePeriod, hcl, daysInMonth]
  · have hcl : classifyPeriod "apr" = .isApril := by decide
    simp [processDatePeriod, hcl, daysInMonth]

/-- Witness for C1 (amended) at the leap year 2024: "feb" resolves to
the full range 2024-02-01 … 2024-02-29. -/
theorem processDatePeriod_recognized_months_witness :
    processDatePeriod (civilToDays 2024 2 10) "feb"
      = (((2024 : ℤ), (2 : ℤ), (1 : ℤ)), ((2024 : ℤ), (2 : ℤ), (29 : ℤ))) := by
  have h := processDatePeriod_recognized_months (civilToDays 2024 2 10) "feb" 2
    (by decide) (by decide)
  rw [h]
  decide

/-- Day-of-month enters `civilToDays` as a linear offset. -/
lemma civilToDays_day_shift (y m d : ℤ) :
    civilToDays y m d = civilToDays y m 1 + (d - 1) := by
  unfold civilToDays
  ring

/-- Day-of-month enters `jsNewDate` as a linear offset. -/
lemma jsNewDate_day_shift (y m0 d : ℤ) :
    jsNewDate y m0 d = jsNewDate y m0 1 + (d - 1) := by
  unfold jsNewDate
  ring

/-- January 1 is the day after December 31 of the previous year. -/
lemma civil_jan1 (y : ℤ) : civilToDays y 1 1 = civilToDays (y - 1) 12 31 + 1 := by
  unfold civilToDays
  norm_num
  omega

/-- `new Date(y, 0, 1)` is January 1 of year `y`. -/
lemma jsNewDate_jan1 (y : ℤ) : jsNewDate y 0 1 = civilToDays y 1 1 := by
  unfold jsNewDate
  norm_num

/-- `new Date(y, 11, 31)` is December 31 of year `y`. -/
lemma jsNewDate_dec31 (y : ℤ) : jsNewDate y 11 31 = civilToDays y 12 31 := by
  unfold jsNewDate
  norm_num
  rw [civilToDays_day_shift y 12 31]
  ring

/-- `new Date(y, 9, 1)` is October 1 of year `y`. -/
lemma jsNewDate_oct1 (y : ℤ) : jsNewDate y 9 1 = civilToDays y 10 1 := by
  unfold jsNewDate
  norm_num

/-- C9 (amended): for every supported timeframe the analytics previous
period ends exactly on the day before the current period starts.  Its
day-length equals the current period's for the `day` and `custom`
timeframes only; `week` uses the previous full Monday-Sunday week
(7 days), `month` the previous full calendar month (not a rolling
30-day window), and `quarter`/`year` the previous full calendar
quarter/year, wrapping into year `y - 1` across year boundaries. -/
theorem getAnalyticsDates_previous_period_amended
    (tf : String) (custom : Option (ℤ × ℤ)) (z : ℤ) (s e ps pe : ℤ)
    (h : getAnalyticsDates tf custom z = some (s, e, ps, pe)) :
    pe = s - 1
    ∧ (classifyTimeframe tf = .isDay → ps = pe ∧ e = s)
    ∧ (classifyTimeframe tf = .isCustom → e - s = pe - ps)
    ∧ (classifyTimeframe tf = .isWeek → pe - ps = 6)
    ∧ (classifyTimeframe tf = .isMonth → 1 ≤ (daysToCivil z).2.1 →
        (daysToCivil z).2.1 ≤ 12 →
        s = civilToDays (daysToCivil z).1 (daysToCivil z).2.1 1
        ∧ ps = (if (daysToCivil z).2.1 = 1
                then civilToDays ((daysToCivil z).1 - 1) 12 1
                else civilToDays (daysToCivil z).1 ((daysToCivil z).2.1 - 1) 1))
    ∧ (classifyTimeframe tf = .isQuarter → 1 ≤ (daysToCivil z).2.1 →
        (daysToCivil z).2.1 ≤ 3 →
        ps = civilToDays ((daysToCivil z).1 - 1) 10 1
        ∧ pe = civilToDays ((daysToCivil z).1 - 1) 12 31)
    ∧ (classifyTimeframe tf = .isYear →
        ps = civilToDays ((daysToCivil z).1 - 1) 1 1
        ∧ pe = civilToDays ((daysToCivil z).1 - 1) 12 31) := by
  unfold getAnalyticsDates at h
  rcases hcl : classifyTimeframe tf <;> rw [hcl] at h
  case isCustom =>
    rcases custom with _ | ⟨cs, ce⟩
    · simp at h
    · simp only [Option.some.injEq, Prod.mk.injEq] at h
      obtain ⟨rfl, rfl, rfl, rfl⟩ := h
      refine ⟨by ring, ?_, ?_, ?_, ?_, ?_, ?_⟩ <;>
        first
          | (intro h'; exact TimeframeBranch.noConfusion h')
          | (intro h'; omega)
  case isDay =>
    simp only [Option.some.injEq, Prod.mk.injEq] at h
    obtain ⟨rfl, rfl, rfl, rfl⟩ := h
    refine ⟨by ring, fun _ => ⟨rfl, rfl⟩, ?_, ?_, ?_, ?_, ?_⟩ <;>
      (intro h'; exact TimeframeBranch.noConfusion h')
  case isWeek =>
    simp only [Option.some.injEq, Prod.mk.injEq] at h
    obtain ⟨rfl, rfl, rfl, rfl⟩ := h
    refine ⟨by ring, ?_, ?_, fun _ => by ring, ?_, ?_, ?_⟩ <;>
      (intro h'; exact TimeframeBranch.noConfusion h')
  case isMonth =>
    simp only [Option.some.injEq, Prod.mk.injEq] at h
    obtain ⟨rfl, rfl, rfl, rfl⟩ := h
    refine ⟨?_, ?_, ?_, ?_, ?_, ?_, ?_⟩
    · rw [jsNewDate_day_shift (daysToCivil z).1 ((daysToCivil z).2.1 - 1) 0]
      ring
    · intro h'; exact TimeframeBranch.noConfusion h'
    · intro h'; exact TimeframeBranch.noConfusion h'
    · intro h'; exact TimeframeBranch.noConfusion h'
    · intro _ h1 h12
      constructor
      · have d1 : ((daysToCivil z).2.1 - 1) / 12 = 0 := by omega
        have d2 : ((daysToCivil z).2.1 - 1) % 12 = (daysToCivil z).2.1 - 1 := by
          omega
        unfold jsNewDate
        rw [d1, d2]
        ring_nf
      · by_cases hm1 : (daysToCivil z).2.1 = 1
        · rw [if_pos hm1, hm1]
          unfold jsNewDate
          norm_num
          ring_nf
        · rw [if_neg hm1]
          have d1 : ((daysToCivil z).2.1 - 1 - 1) / 12 = 0 := by omega
          have d2 : ((daysToCivil z).2.1 - 1 - 1) % 12
              = (daysToCivil z).2.1 - 2 := by omega
          unfold jsNewDate
          rw [d1, d2]
          ring_nf
    · intro h'; exact TimeframeBranch.noConfusion h'
    · intro h'; exact TimeframeBranch.noConfusion h'
  case isQuarter =>
    dsimp only [] at h
    by_cases hq : ((daysToCivil z).2.1 - 1) / 3 = 0
    · rw [if_pos hq] at h
      simp only [Option.some.injEq, Prod.mk.injEq] at h
      obtain ⟨rfl, rfl, rfl, rfl⟩ := h
      refine ⟨?_, ?_, ?_, ?_, ?_, fun _ _ _ => ⟨?_, ?_⟩, ?_⟩
      · rw [jsNewDate_dec31, jsNewDate_jan1, civil_jan1]
        ring
      · intro h'; exact TimeframeBranch.noConfusion h'
      · intro h'; exact TimeframeBranch.noConfusion h'
      · intro h'; exact TimeframeBranch.noConfusion h'
      · intro h'; exact TimeframeBranch.noConfusion h'
      · rw [jsNewDate_oct1]
      · rw [jsNewDate_dec31]
      · intro h'; exact TimeframeBranch.noConfusion h'
    · rw [if_neg hq] at h
      simp only [Option.some.injEq, Prod.mk.injEq] at h
      obtain ⟨rfl, rfl, rfl, rfl⟩ := h
      refine ⟨?_, ?_, ?_, ?_, ?_, fun _ h1 h3 => absurd (by omega : ((daysToCivil z).2.1 - 1) / 3 = 0) hq, ?_⟩
      · rw [jsNewDate_day_shift (daysToCivil z).1 (((daysToCivil z).2.1 - 1) / 3 * 3) 0]
        ring
      · intro h'; exact TimeframeBranch.noConfusion h'
      · intro h'; exact TimeframeBranch.noConfusion h'
      · intro h'; exact TimeframeBranch.noConfusion h'
      · intro h'; exact TimeframeBranch.noConfusion h'
      · intro h'; exact TimeframeBranch.noConfusion h'
  case isYear =>
    simp only [Option.some.injEq, Prod.mk.injEq] at h
    obtain ⟨rfl, rfl, rfl, rfl⟩ := h
    refine ⟨?_, ?_, ?_, ?_, ?_, ?_, fun _ => ⟨?_, ?_⟩⟩
    · rw [jsNewDate_dec31, jsNewDate_jan1, civil_jan1]
      ring
    · intro h'; exact TimeframeBranch.noConfusion h'
    · intro h'; exact TimeframeBranch.noConfusion h'
    · intro h'; exact TimeframeBranch.noConfusion h'
    · intro h'; exact TimeframeBranch.noConfusion h'
    · intro h'; exact TimeframeBranch.noConfusion h'
    · rw [jsNewDate_jan1]
    · rw [jsNewDate_dec31]
  case isOther =>
    simp at h

/-- Counterexample for C9 as frozen: on 2025-03-15 with the `month`
timeframe, the current period is the 31-day month of March but the
previous period is the 28-day month of February — the previous period
does not have identical day-length. -/
theorem getAnalyticsDates_month_length_counterexample :
    getAnalyticsDates "month" none (civilToDays 2025 3 15)
      = some (civilToDays 2025 3 1, civilToDays 2025 3 31,
              civilToDays 2025 2 1, civilToDays 2025 2 28)
    ∧ civilToDays 2025 3 31 - civilToDays 2025 3 1
        ≠ civilToDays 2025 2 28 - civilToDays 2025 2 1 := by
  constructor
  · decide
  · decide

/-- Witness for C9 (amended) at the `year` timeframe on 2025-06-01: the
previous period is the full year 2024, ending the day before 2025-01-01. -/
theorem getAnalyticsDates_previous_period_amended_witness :
    civilToDays 2024 12 31 = civilToDays 2025 1 1 - 1
    ∧ civilToDays 2024 1 1 = civilToDays (2025 - 1) 1 1 := by
  have h := getAnalyticsDates_previous_period_amended "year" none
    (civilToDays 2025 6 1) (civilToDays 2025 1 1) (civilToDays 2025 6 1)
    (civilToDays 2024 1 1) (civilToDays 2024 12 31) (by decide)
  exact ⟨h.1, (h.2.2.2.2.2.2 rfl).1⟩

/-- Updating an existing key in place leaves it findable with the new
value. -/
lemma find_set_mem (fs : List (String × JsValue)) (k : String) (w : JsValue)
    (h : fs.any (fun f => f.1 = k) = true) :
    (fs.map (fun f => if f.1 = k then (f.1, w) else f)).find?
      (fun f => f.1 = k) = some (k, w) := by
  induction fs with
  | nil => simp at h
  | cons f t ih =>
      by_cases hf : f.1 = k
      · simp [List.find?, hf]
      · simp only [List.any_cons, hf, decide_eq_true_eq, Bool.or_eq_true] at h
        rcases h with h | h
        · exact h.elim
        · simp [List.find?, hf, ih h]

/-- Appending a fresh key makes it findable with the new value. -/
lemma find_append_new (fs : List (String × JsValue)) (k : String) (w : JsValue)
    (h : fs.any (fun f => f.1 = k) = false) :
    (fs ++ [(k, w)]).find? (fun f => f.1 = k) = some (k, w) := by
  induction fs with
  | nil => simp [List.find?]
  | cons f t ih =>
      simp only [List.any_cons, Bool.or_eq_false_iff, decide_eq_false_iff_not] at h
      simp [List.find?, h.1, ih (by simp [h.2])]

/-- Reading a key back after `jsSetProp` on an object yields the value
just assigned. -/
lemma jsGetProp_jsSetProp (fs : List (String × JsValue)) (k : String)
    (w v' : JsValue) (h : jsSetProp (.obj fs) k w = .ok v') :
    jsGetProp v' k = .ok w := by
  simp only [jsSetProp, Except.ok.injEq] at h
  subst h
  by_cases hy : fs.any (fun f => f.1 = k) = true
  · simp [jsGetProp, hy, find_set_mem fs k w hy]
  · simp only [Bool.not_eq_true] at hy
    simp [jsGetProp, hy, find_append_new fs k w hy]

/-- Decompose a successful `Except` bind into its two successful stages. -/
lemma except_bind_ok {α β : Type} {a : Except Unit α} {f : α → Except Unit β}
    {b : β} (h : a.bind f = .ok b) : ∃ x, a = .ok x ∧ f x = .ok b := by
  cases a with
  | error e => simp [Except.bind] at h
  | ok x => exact ⟨x, rfl, h⟩

/-- Updating one key leaves every other key's lookup unchanged
(in-place update form). -/
lemma find_set_other (fs : List (String × JsValue)) (kc k2 : String)
    (w : JsValue) (hne : ¬ k2 = kc) :
    (fs.map (fun f => if f.1 = kc then (f.1, w) else f)).find?
      (fun f => f.1 = k2) = fs.find? (fun f => f.1 = k2) := by
  induction fs with
  | nil => rfl
  | cons f t ih =>
      by_cases hf : f.1 = kc
      · have hk : ¬ f.1 = k2 := by
          rw [hf]
          exact fun hh => hne hh.symm
        have hkc : ¬ kc = k2 := fun hh => hne hh.symm
        simp [List.find?, hf, hk, hkc, ih]
      · by_cases hk : f.1 = k2
        · simp [List.find?, hf, hk, hne]
        · simp [List.find?, hf, hk, ih]

/-- Updating one key leaves every other key's lookup unchanged
(append form). -/
lemma find_append_other (fs : List (String × JsValue)) (kc k2 : String)
    (w : JsValue) (hne : ¬ k2 = kc) :
    (fs ++ [(kc, w)]).find? (fun f => f.1 = k2)
      = fs.find? (fun f => f.1 = k2) := by
  induction fs with
  | nil => simp [List.find?, show ¬ kc = k2 from fun hh => hne hh.symm]
  | cons f t ih =>
      by_cases hk : f.1 = k2
      · simp [List.find?, hk]
      · simp [List.find?, hk, ih]

/-- Reading any other key after `jsSetProp` on an object is unchanged. -/
lemma jsGetProp_jsSetProp_other (fs : List (String × JsValue))
    (kc k2 : String) (w v' : JsValue) (hne : ¬ k2 = kc)
    (h : jsSetProp (.obj fs) kc w = .ok v') :
    jsGetProp v' k2 = jsGetProp (.obj fs) k2 := by
  simp only [jsSetProp, Except.ok.injEq] at h
  subst h
  by_cases hy : fs.any (fun f => f.1 = kc) = true
  · simp [jsGetProp, hy, find_set_other fs kc k2 w hne]
  · simp only [Bool.not_eq_true] at hy
    simp [jsGetProp, hy, find_append_other fs kc k2 w hne]

/-- C4 (amended): every record the add-expense path persists has a
category that is the normaliser's output — a member of the fixed
15-value set — but its amount is stored exactly as `parseFloat` returns
it: no rounding to 2 decimal places and no non-negativity check are
applied at the point of storage. -/
theorem addExpense_category_normalized_amended
    (gwE gwM : Except Unit JsValue) (parse : String → Option JsValue)
    (pf : String → Option ℚ) (r : ExpenseRecord)
    (h : addExpenseBranch (extractExpenseDetails gwE gwM parse) pf = some r) :
    (r.category = .str (mapToPreDefinedCategory gwM)
      ∧ ∃ c, r.category = .str c ∧ c ∈ EXPENSE_CATEGORIES)
    ∧ (∃ a, jsGetProp (extractExpenseDetails gwE gwM parse) "amount" = .ok a
        ∧ jsParseFloat pf a = some r.amount) := by
  cases hbody : extractExpenseDetailsBody gwE gwM parse with
  | error e =>
      unfold extractExpenseDetails at h
      rw [hbody] at h
      rw [show addExpenseBranch
        (.obj [("error", .str "Failed to parse expense details.")]) pf = none
        from rfl] at h
      exact Option.noConfusion h
  | ok v =>
      have hdet : extractExpenseDetails gwE gwM parse = v := by
        unfold extractExpenseDetails
        rw [hbody]
      rw [hdet] at h ⊢
      unfold extractExpenseDetailsBody at hbody
      obtain ⟨resp, hgw, hbody⟩ := except_bind_ok hbody
      obtain ⟨content, hc, hbody⟩ := except_bind_ok hbody
      obtain ⟨parsed, hj, hbody⟩ := except_bind_ok hbody
      obtain ⟨err, he, hbody⟩ := except_bind_ok hbody
      by_cases htr : truthy err = true
      · rw [if_pos htr] at hbody
        simp only [Pure.pure, Except.pure, Except.ok.injEq] at hbody
        subst hbody
        unfold addExpenseBranch at h
        simp only [he, htr, if_true] at h
        exact Option.noConfusion h
      · rw [if_neg htr] at hbody
        simp only [Bool.not_eq_true] at htr
        rcases parsed with _ | _ | b | q | s | xs | fs
        · simp [jsSetProp] at hbody
        · simp [jsSetProp] at hbody
        · simp only [jsSetProp, Except.ok.injEq] at hbody
          subst hbody
          unfold addExpenseBranch at h
          simp [jsGetProp, jsParseFloat] at h
        · simp only [jsSetProp, Except.ok.injEq] at hbody
          subst hbody
          unfold addExpenseBranch at h
          simp [jsGetProp, jsParseFloat] at h
        · simp only [jsSetProp, Except.ok.injEq] at hbody
          subst hbody
          unfold addExpenseBranch at h
          simp [jsGetProp, jsParseFloat] at h
        · simp only [jsSetProp, Except.ok.injEq] at hbody
          subst hbody
          unfold addExpenseBranch at h
          simp [jsGetProp, jsParseFloat] at h
        · -- the details are an object: "category" was overwritten with
          -- the normalised category, every other key is untouched
          have hget : jsGetProp v "category"
              = .ok (.str (mapToPreDefinedCategory gwM)) :=
            jsGetProp_jsSetProp fs "category"
              (.str (mapToPreDefinedCategory gwM)) v hbody
          have herr : jsGetProp v "error" = jsGetProp (.obj fs) "error" :=
            jsGetProp_jsSetProp_other fs "category" "error" _ v (by decide) hbody
          have hamt : jsGetProp v "amount" = jsGetProp (.obj fs) "amount" :=
            jsGetProp_jsSetProp_other fs "category" "amount" _ v (by decide) hbody
          have hv : ∃ gs, v = .obj gs := by
            simp only [jsSetProp, Except.ok.injEq] at hbody
            exact ⟨_, hbody.symm⟩
          obtain ⟨gs, rfl⟩ := hv
          unfold addExpenseBranch at h
          rw [herr, he] at h
          simp only [htr, Bool.false_eq_true, if_false] at h
          rw [show jsGetProp (JsValue.obj gs) "amount"
              = .ok (match gs.find? (fun f => f.1 = "amount") with
                     | some f => f.2
                     | none => JsValue.undefined) from rfl,
            hget,
            show jsGetProp (JsValue.obj gs) "date"
              = .ok (match gs.find? (fun f => f.1 = "date") with
                     | some f => f.2
                     | none => JsValue.undefined) from rfl,
            show jsGetProp (JsValue.obj gs) "title"
              = .ok (match gs.find? (fun f => f.1 = "title") with
                     | some f => f.2
                     | none => JsValue.undefined) from rfl] at h
          rcases hpf : jsParseFloat pf (match gs.find? (fun f => f.1 = "amount") with
              | some f => f.2
              | none => JsValue.undefined) with _ | a <;>
            simp only [hpf] at h
          · exact Option.noConfusion h
          · split at h
            · rw [Option.some.injEq] at h
              subst h
              refine ⟨⟨rfl, _, rfl, mapToPreDefinedCategory_mem gwM⟩,
                ⟨_, rfl, hpf⟩⟩
            · exact Option.noConfusion h

/-- Counterexample for C4 as frozen: an extraction reply with amount
`-5.123` reaches the store unchanged — the persisted amount is negative
and is not equal to its own 2-decimal rounding, because the code stores
`parseFloat(amount)` with no rounding and no sign check. -/
theorem addExpense_amount_unrounded_counterexample :
    (addExpenseBranch (extractExpenseDetails (.ok (groqContent c4Content))
        (.ok (groqContent "Travel")) c4Parse) (fun _ => none)).map
      (fun r => r.amount) = some (mkRat (-5123) 1000)
    ∧ (mkRat (-5123) 1000).num < 0
    ∧ round2 (mkRat (-5123) 1000) ≠ mkRat (-5123) 1000 := by
  refine ⟨rfl, by decide, by decide⟩

/-- Witness for C4 (amended): a well-formed extraction produces a
persisted record whose category is the normaliser's "Travel", a member
of the fixed set. -/
theorem addExpense_category_normalized_amended_witness :
    (⟨mkRat 2 1, .str "Travel", .str "2025-01-02", .str "Taxi"⟩ : ExpenseRecord).category
        = .str (mapToPreDefinedCategory (.ok (groqContent "Travel")))
    ∧ ∃ c, (⟨mkRat 2 1, .str "Travel", .str "2025-01-02",
        .str "Taxi"⟩ : ExpenseRecord).category = .str c
        ∧ c ∈ EXPENSE_CATEGORIES :=
  (addExpense_category_normalized_amended (.ok (groqContent c4wContent))
    (.ok (groqContent "Travel")) c4wParse (fun _ => none)
    ⟨mkRat 2 1, .str "Travel", .str "2025-01-02", .str "Taxi"⟩ rfl).1

/-- C7: `queryExpenses` is total — whenever any step of its body throws
it returns the fixed apology sentence — and whenever the filtered
aggregation returns no documents it returns the "No expenses found"
sentence (in particular a sentence with that literal prefix). -/
theorem queryExpenses_empty_and_errors (env : QueryEnv) (msg : String) :
    (queryExpensesBody env msg = .error () → queryExpenses env msg = queryApology)
    ∧ (∀ plan, queryPlan env msg = .ok plan →
        env.db plan.1 plan.2.1 plan.2.2.1 = .ok [] →
        queryExpenses env msg = renderNoExpenses plan.1 plan.2.2.2
        ∧ List.isPrefixOf ("No expenses found ").data
            (queryExpenses env msg).data = true) := by
  constructor
  · intro h
    unfold queryExpenses
    rw [h]
  · intro plan hp hdb
    have hbody : queryExpensesBody env msg
        = .ok (renderNoExpenses plan.1 plan.2.2.2) := by
      unfold queryExpensesBody
      rw [hp]
      simp [Bind.bind, Except.bind, hdb, pure, Except.pure]
    constructor
    · unfold queryExpenses
      rw [hbody]
    · unfold queryExpenses
      rw [hbody]
      unfold renderNoExpenses
      simp only [String.data_append, List.append_assoc]
      exact isPrefixOf_self_append _ _

/-- Witness for C7: with gateway and store both failing the apology is
returned; with an empty result set the "No expenses found" sentence is
returned. -/
theorem queryExpenses_empty_and_errors_witness :
    queryExpenses cFailEnv "hi" = queryApology
    ∧ queryExpenses c7EmptyEnv "q" = renderNoExpenses none "this month" := by
  constructor
  · exact (queryExpenses_empty_and_errors cFailEnv "hi").1 rfl
  · exact ((queryExpenses_empty_and_errors c7EmptyEnv "q").2
      (none, ((2025, 10, 1) : ℤ × ℤ × ℤ), ((2025, 10, 11) : ℤ × ℤ × ℤ),
        "this month") rfl rfl).1

/-- The stable descending insertion preserves descending adjacency. -/
lemma chain_insertDescByVal (x : String × ℚ) (l : List (String × ℚ))
    (h : descByVal l) : descByVal (insertDescByVal x l) := by
  induction l with
  | nil => simp [insertDescByVal, descByVal]
  | cons y t ih =>
      unfold insertDescByVal
      by_cases hlt : x.2.num * (y.2.den : ℤ) < y.2.num * (x.2.den : ℤ)
      · rw [if_pos hlt]
        have ht : descByVal t := (List.chain'_cons'.mp h).2
        have htail := ih ht
        cases t with
        | nil =>
            simp only [insertDescByVal, descByVal]
            exact List.chain'_pair.mpr (le_of_lt hlt)
        | cons z t' =>
            unfold insertDescByVal
            by_cases hlt2 : x.2.num * (z.2.den : ℤ) < z.2.num * (x.2.den : ℤ)
            · rw [if_pos hlt2]
              unfold descByVal at htail ⊢
              unfold insertDescByVal at htail
              rw [if_pos hlt2] at htail
              exact List.chain'_cons.mpr
                ⟨(List.chain'_cons.mp h).1, htail⟩
            · rw [if_neg hlt2]
              unfold descByVal at htail ⊢
              unfold insertDescByVal at htail
              rw [if_neg hlt2] at htail
              exact List.chain'_cons.mpr ⟨le_of_lt hlt, htail⟩
      · rw [if_neg hlt]
        exact List.chain'_cons.mpr ⟨le_of_not_lt hlt, h⟩

/-- The breakdown sort produces a descending list. -/
lemma sortDescByVal_chain (l : List (String × ℚ)) :
    descByVal (sortDescByVal l) := by
  induction l with
  | nil => simp [sortDescByVal, descByVal]
  | cons x t ih => exact chain_insertDescByVal x (sortDescByVal t) ih

/-- The top-category breakdown is descending and has at most 3 entries. -/
lemma topCategoriesOf_sorted_short (docs : List ExpDoc) :
    descByVal (topCategoriesOf docs) ∧ (topCategoriesOf docs).length ≤ 3 := by
  unfold topCategoriesOf
  constructor
  · exact List.Chain'.take (sortDescByVal_chain _) 3
  · exact List.length_take_le 3 _

/-- C8: with two records of 100 and 300 in "Food & Dining" and one of 50
in "Travel" in range and no category filter, the summary reports total
450 over 3 transactions with the breakdown "Food & Dining (₹400)"
before "Travel (₹50)"; in general the appended breakdown lists
per-category subtotals in descending order, at most three of them. -/
theorem queryExpenses_breakdown_example :
    queryExpenses c8Env "How much did I spend this month?"
      = "You spent ₹450 in total this month (3 transactions). Top categories: Food & Dining (₹400), Travel (₹50)"
    ∧ ∀ docs : List ExpDoc, descByVal (topCategoriesOf docs)
        ∧ (topCategoriesOf docs).length ≤ 3 := by
  constructor
  · decide
  · exact topCategoriesOf_sorted_short

/-- The trimmed form of a list is an inner factor (existential form). -/
lemma jsTrimList_infix (l : List Char) :
    ∃ x y, l = x ++ (jsTrimList l ++ y) :=
  ⟨l.takeWhile isWs, ((l.dropWhile isWs).reverse.takeWhile isWs).reverse,
    jsTrimList_factor l⟩

/-- A message whose trimmed, lower-cased form is a month name contains
that month name after lower-casing. -/
lemma strIncludes_trimmed_lower (msg : String) :
    strIncludes (jsToLower msg) (jsToLower (jsTrimStr msg)) = true := by
  unfold strIncludes jsToLower jsTrimStr
  show containsSub (msg.data.map Char.toLower)
    ((jsTrimList msg.data).map Char.toLower) = true
  obtain ⟨x, y, hxy⟩ := jsTrimList_infix msg.data
  generalize hT : jsTrimList msg.data = T at hxy ⊢
  rw [hxy, List.map_append, List.map_append]
  exact containsSub_append _ _ _

/-- After the early month fast path has declined, the bare-month
follow-up branch cannot fire: line 479 has just overwritten
`context.lastIntent` with the freshly classified intent, and the branch
is only reached when that intent is not `"query"`. -/
lemma interactAfterMonth_ne (gw : Except Unit JsValue)
    (parse : String → Option JsValue) (msg : String) :
    interactAfterMonth gw parse msg ≠ .bareMonthFollowup := by
  unfold interactAfterMonth
  by_cases h1 : jsStrEq (detectIntent gw parse) "add_expense" = true
  · simp [h1]
  · by_cases h2 : jsStrEq (detectIntent gw parse) "query" = true
    · simp [h1, h2]
    · simp [h1, h2]

/-- C10: for every inbound message that is exactly a bare month name or
abbreviation (the line-513 regex), `handleMonthNameResponse` intercepts
the turn with a non-empty response before intent classification, so the
orchestrator answers from the early month fast path; consequently the
branch guarded by `context.lastIntent === "query"` and the bare-month
regex never produces the response, for any message and any environment. -/
theorem bareMonthFollowup_unreachable (env : QueryEnv)
    (gwIntent : Except Unit JsValue) (msg : String) :
    (bareMonthTest msg = true → interactBranch env gwIntent msg = .monthEarly)
    ∧ interactBranch env gwIntent msg ≠ .bareMonthFollowup := by
  constructor
  · intro h
    have hm : jsToLower (jsTrimStr msg) ∈ monthNamesList := by
      unfold bareMonthTest at h
      simpa [List.contains, List.elem_eq_mem] using h
    have hsome : (monthNamesList.find?
        (fun m => strIncludes (jsToLower msg) m)).isSome := by
      exact List.find?_isSome.mpr
        ⟨jsToLower (jsTrimStr msg), hm, strIncludes_trimmed_lower msg⟩
    obtain ⟨matched, hfind⟩ := Option.isSome_iff_exists.mp hsome
    have hhandle : handleMonthNameResponse env msg
        = some (queryExpenses env ("How much did I spend in " ++ matched ++ "?")) := by
      unfold handleMonthNameResponse
      rw [hfind]
    unfold interactBranch
    simp [hhandle,
      queryExpenses_ne_empty env ("How much did I spend in " ++ matched ++ "?")]
  · unfold interactBranch
    cases hh : handleMonthNameResponse env msg with
    | none => exact interactAfterMonth_ne _ _ _
    | some r =>
        simp only [hh]
        by_cases hr : r ≠ ""
        · rw [if_pos hr]
          decide
        · rw [if_neg hr]
          exact interactAfterMonth_ne _ _ _

/-- Witness for C10 at the bare-month message `" March "`: the early
month fast path answers the turn. -/
theorem bareMonthFollowup_unreachable_witness :
    bareMonthTest " March " = true
    ∧ interactBranch cFailEnv (.error ()) " March " = .monthEarly :=
  ⟨by decide,
    (bareMonthFollowup_unreachable cFailEnv (.error ()) " March ").1 (by decide)⟩
